import Mathlib

/-!
Verification of the record-management backend (src/main.py, src/models.py).

The development shallowly embeds the document model of the service:
BSON-like values, MongoDB documents as ordered key-value lists (Python
dict semantics: unique keys, insertion order, in-place overwrite), the
`serialize_mongo_document` normalizer, and the HTTP handlers
`create_record`, `create_records_batch`, `get_record_by_id`,
`update_record`, `get_config`, `create_config` and `update_config`.
Time (datetime.utcnow) and fresh ObjectIds are passed as explicit
parameters; MongoDB write results are modelled by the documents the
operations produce, with modified_count zero exactly when the resulting
document equals the prior one.
-/

set_option maxHeartbeats 1000000

/-- A BSON-like value as stored in MongoDB documents: JSON scalars,
arrays, nested documents, plus ObjectId (carrying its 24-hex string
form) and datetime (carrying its ISO-8601 string form). -/
inductive Value where
  | null : Value
  | bool (b : Bool) : Value
  | int (n : Int) : Value
  | str (s : String) : Value
  | oid (s : String) : Value
  | dt (s : String) : Value
  | arr (xs : List Value) : Value
  | obj (fs : List (String × Value)) : Value
deriving Repr

/-- A MongoDB document / Python dict: ordered list of key-value pairs. -/
abbrev Doc := List (String × Value)

mutual

def decEqVal : (a b : Value) → Decidable (a = b)
  | Value.null, Value.null => isTrue rfl
  | Value.null, Value.bool _ => isFalse (fun h => Value.noConfusion h)
  | Value.null, Value.int _ => isFalse (fun h => Value.noConfusion h)
  | Value.null, Value.str _ => isFalse (fun h => Value.noConfusion h)
  | Value.null, Value.oid _ => isFalse (fun h => Value.noConfusion h)
  | Value.null, Value.dt _ => isFalse (fun h => Value.noConfusion h)
  | Value.null, Value.arr _ => isFalse (fun h => Value.noConfusion h)
  | Value.null, Value.obj _ => isFalse (fun h => Value.noConfusion h)
  | Value.bool _, Value.null => isFalse (fun h => Value.noConfusion h)
  | Value.bool a, Value.bool b =>
      if h : a = b then isTrue (by rw [h]) else
        isFalse (fun hh => h (by injection hh))
  | Value.bool _, Value.int _ => isFalse (fun h => Value.noConfusion h)
  | Value.bool _, Value.str _ => isFalse (fun h => Value.noConfusion h)
  | Value.bool _, Value.oid _ => isFalse (fun h => Value.noConfusion h)
  | Value.bool _, Value.dt _ => isFalse (fun h => Value.noConfusion h)
  | Value.bool _, Value.arr _ => isFalse (fun h => Value.noConfusion h)
  | Value.bool _, Value.obj _ => isFalse (fun h => Value.noConfusion h)
  | Value.int _, Value.null => isFalse (fun h => Value.noConfusion h)
  | Value.int _, Value.bool _ => isFalse (fun h => Value.noConfusion h)
  | Value.int a, Value.int b =>
      if h : a = b then isTrue (by rw [h]) else
        isFalse (fun hh => h (by injection hh))
  | Value.int _, Value.str _ => isFalse (fun h => Value.noConfusion h)
  | Value.int _, Value.oid _ => isFalse (fun h => Value.noConfusion h)
  | Value.int _, Value.dt _ => isFalse (fun h => Value.noConfusion h)
  | Value.int _, Value.arr _ => isFalse (fun h => Value.noConfusion h)
  | Value.int _, Value.obj _ => isFalse (fun h => Value.noConfusion h)
  | Value.str _, Value.null => isFalse (fun h => Value.noConfusion h)
  | Value.str _, Value.bool _ => isFalse (fun h => Value.noConfusion h)
  | Value.str _, Value.int _ => isFalse (fun h => Value.noConfusion h)
  | Value.str a, Value.str b =>
      if h : a = b then isTrue (by rw [h]) else
        isFalse (fun hh => h (by injection hh))
  | Value.str _, Value.oid _ => isFalse (fun h => Value.noConfusion h)
  | Value.str _, Value.dt _ => isFalse (fun h => Value.noConfusion h)
  | Value.str _, Value.arr _ => isFalse (fun h => Value.noConfusion h)
  | Value.str _, Value.obj _ => isFalse (fun h => Value.noConfusion h)
  | Value.oid _, Value.null => isFalse (fun h => Value.noConfusion h)
  | Value.oid _, Value.bool _ => isFalse (fun h => Value.noConfusion h)
  | Value.oid _, Value.int _ => isFalse (fun h => Value.noConfusion h)
  | Value.oid _, Value.str _ => isFalse (fun h => Value.noConfusion h)
  | Value.oid a, Value.oid b =>
      if h : a = b then isTrue (by rw [h]) else
        isFalse (fun hh => h (by injection hh))
  | Value.oid _, Value.dt _ => isFalse (fun h => Value.noConfusion h)
  | Value.oid _, Value.arr _ => isFalse (fun h => Value.noConfusion h)
  | Value.oid _, Value.obj _ => isFalse (fun h => Value.noConfusion h)
  | Value.dt _, Value.null => isFalse (fun h => Value.noConfusion h)
  | Value.dt _, Value.bool _ => isFalse (fun h => Value.noConfusion h)
  | Value.dt _, Value.int _ => isFalse (fun h => Value.noConfusion h)
  | Value.dt _, Value.str _ => isFalse (fun h => Value.noConfusion h)
  | Value.dt _, Value.oid _ => isFalse (fun h => Value.noConfusion h)
  | Value.dt a, Value.dt b =>
      if h : a = b then isTrue (by rw [h]) else
        isFalse (fun hh => h (by injection hh))
  | Value.dt _, Value.arr _ => isFalse (fun h => Value.noConfusion h)
  | Value.dt _, Value.obj _ => isFalse (fun h => Value.noConfusion h)
  | Value.arr _, Value.null => isFalse (fun h => Value.noConfusion h)
  | Value.arr _, Value.bool _ => isFalse (fun h => Value.noConfusion h)
  | Value.arr _, Value.int _ => isFalse (fun h => Value.noConfusion h)
  | Value.arr _, Value.str _ => isFalse (fun h => Value.noConfusion h)
  | Value.arr _, Value.oid _ => isFalse (fun h => Value.noConfusion h)
  | Value.arr _, Value.dt _ => isFalse (fun h => Value.noConfusion h)
  | Value.arr xs, Value.arr ys =>
      match decEqValList xs ys with
      | isTrue h => isTrue (by rw [h])
      | isFalse h => isFalse (fun hh => h (by injection hh))
  | Value.arr _, Value.obj _ => isFalse (fun h => Value.noConfusion h)
  | Value.obj _, Value.null => isFalse (fun h => Value.noConfusion h)
  | Value.obj _, Value.bool _ => isFalse (fun h => Value.noConfusion h)
  | Value.obj _, Value.int _ => isFalse (fun h => Value.noConfusion h)
  | Value.obj _, Value.str _ => isFalse (fun h => Value.noConfusion h)
  | Value.obj _, Value.oid _ => isFalse (fun h => Value.noConfusion h)
  | Value.obj _, Value.dt _ => isFalse (fun h => Value.noConfusion h)
  | Value.obj _, Value.arr _ => isFalse (fun h => Value.noConfusion h)
  | Value.obj fs, Value.obj gs =>
      match decEqFieldList fs gs with
      | isTrue h => isTrue (by rw [h])
      | isFalse h => isFalse (fun hh => h (by injection hh))

def decEqValList : (xs ys : List Value) → Decidable (xs = ys)
  | [], [] => isTrue rfl
  | [], _ :: _ => isFalse (fun h => List.noConfusion h)
  | _ :: _, [] => isFalse (fun h => List.noConfusion h)
  | x :: xs, y :: ys =>
      match decEqVal x y with
      | isFalse h => isFalse (fun hh => h (by injection hh))
      | isTrue h1 =>
        match decEqValList xs ys with
        | isTrue h2 => isTrue (by rw [h1, h2])
        | isFalse h => isFalse (fun hh => h (by injection hh))

def decEqFieldList : (fs gs : List (String × Value)) → Decidable (fs = gs)
  | [], [] => isTrue rfl
  | [], _ :: _ => isFalse (fun h => List.noConfusion h)
  | _ :: _, [] => isFalse (fun h => List.noConfusion h)
  | (k, v) :: fs, (l, w) :: gs =>
      if hk : k = l then
        match decEqVal v w with
        | isFalse h => isFalse (fun hh => by
            have := congrArg List.head? hh
            simp at this
            exact h this.2)
        | isTrue h1 =>
          match decEqFieldList fs gs with
          | isTrue h2 => isTrue (by rw [hk, h1, h2])
          | isFalse h => isFalse (fun hh => h (by injection hh))
      else
        isFalse (fun hh => hk (by
          have := congrArg List.head? hh
          simp at this
          exact this.1))

end

instance : DecidableEq Value := decEqVal

/-- Python dict lookup: value of the first (hence, in a dict, only)
occurrence of the key. -/
def getKey : Doc → String → Option Value
  | [], _ => none
  | (k, v) :: fs, key => if k = key then some v else getKey fs key

/-- Python `key in dict`. -/
def hasKey (d : Doc) (k : String) : Bool := (getKey d k).isSome

/-- Python `dict.get(key, default)`. -/
def getKeyD (d : Doc) (k : String) (v : Value) : Value := (getKey d k).getD v

/-- Python dict assignment `d[key] = v`: overwrite in place when the key
exists, append otherwise. -/
def setKey : Doc → String → Value → Doc
  | [], key, v => [(key, v)]
  | (k, w) :: fs, key, v =>
      if k = key then (key, v) :: fs else (k, w) :: setKey fs key v

/-- Python `dict.pop(key, None)`: drop the key when present. -/
def eraseKey : Doc → String → Doc
  | [], _ => []
  | (k, w) :: fs, key => if k = key then fs else (k, w) :: eraseKey fs key

/-- Pydantic `model_dump(exclude_none=True)` on an already-dumped dict:
drop every field whose value is None (src/main.py lines 80, 120, 245,
394, 458). -/
def dropNone (d : Doc) : Doc := d.filter (fun kv => !(decide (kv.2 = Value.null)))

/-- Dict well-formedness: keys are pairwise distinct. -/
def nodupKeys : Doc → Bool
  | [] => true
  | (k, _) :: fs => !(hasKey fs k) && nodupKeys fs

/-- No field of the document holds the null value. -/
def noNulls (d : Doc) : Bool := d.all (fun kv => !(decide (kv.2 = Value.null)))

/-- MongoDB `$set` of the fields of `upd` onto `d` (src/main.py lines
255-258): each field of `upd`, in order, overwrites or extends `d`. -/
def applySet : Doc → Doc → Doc
  | d, [] => d
  | d, (k, v) :: upd => applySet (setKey d k v) upd

/-- `collection.find_one with an _id filter` over the records collection,
modelled as the first document whose `_id` field is the given ObjectId. -/
def findOneById : List Doc → String → Option Doc
  | [], _ => none
  | d :: ds, id =>
      if getKey d "_id" = some (Value.oid id) then some d else findOneById ds id

/-- `collection.update_one with an _id filter`: the first matching
document is replaced by the given (already `$set`-merged) document. -/
def updateFirstById : List Doc → String → Doc → List Doc
  | [], _, _ => []
  | d :: ds, id, nd =>
      if getKey d "_id" = some (Value.oid id) then nd :: ds
      else d :: updateFirstById ds id nd

/-- `collection.replace_one` with the empty filter: the first document of
the collection is replaced. -/
def replaceFirst : List Doc → Doc → List Doc
  | [], _ => []
  | _ :: ds, nd => nd :: ds

/-- MongoDB `replace_one` keeps the `_id` of the matched document; the
replacement document gains it (in leading position). -/
def replaceKeepId (existing newBody : Doc) : Doc :=
  match getKey existing "_id" with
  | some i => ("_id", i) :: newBody
  | none => newBody

/-- `bson.ObjectId(s)` succeeds exactly on 24-character hex strings. -/
def isHexChar (c : Char) : Bool :=
  c.isDigit || (decide ('a' ≤ c) && decide (c ≤ 'f')) || (decide ('A' ≤ c) && decide (c ≤ 'F'))

def isValidObjectId (s : String) : Bool :=
  s.length == 24 && s.data.all isHexChar

mutual

/-- Body of `serialize_mongo_document` (src/main.py lines 20-36) on one
dict value: ObjectId and datetime become strings, nested dicts recurse,
lists are handled element-wise, other scalars pass through. -/
def serializeVal : Value → Value
  | Value.null => Value.null
  | Value.bool b => Value.bool b
  | Value.int n => Value.int n
  | Value.str s => Value.str s
  | Value.oid s => Value.str s
  | Value.dt s => Value.str s
  | Value.arr xs => Value.arr (serializeItems xs)
  | Value.obj fs => Value.obj (serializeFields fs)

/-- List-element handling of `serialize_mongo_document` (src/main.py
lines 29-34): dict elements recurse, ObjectId and datetime elements are
converted, every other element (nested lists included) passes through. -/
def serializeItem : Value → Value
  | Value.obj fs => Value.obj (serializeFields fs)
  | Value.oid s => Value.str s
  | Value.dt s => Value.str s
  | v => v

def serializeItems : List Value → List Value
  | [] => []
  | x :: xs => serializeItem x :: serializeItems xs

def serializeFields : Doc → Doc
  | [] => []
  | (k, v) :: fs => (k, serializeVal v) :: serializeFields fs

end

/-- `serialize_mongo_document` (src/main.py lines 12-38): None maps to
None, a dict is rewritten field by field. -/
def serialize_mongo_document : Option Doc → Option Doc
  | none => none
  | some d => some (serializeFields d)

mutual

/-- The value contains no ObjectId and no datetime at any position that
`serialize_mongo_document` converts (dict values at any depth reached by
the recursion, and direct list elements). -/
def plainVal : Value → Bool
  | Value.oid _ => false
  | Value.dt _ => false
  | Value.arr xs => plainItems xs
  | Value.obj fs => plainFields fs
  | _ => true

def plainItem : Value → Bool
  | Value.oid _ => false
  | Value.dt _ => false
  | Value.obj fs => plainFields fs
  | _ => true

def plainItems : List Value → Bool
  | [] => true
  | x :: xs => plainItem x && plainItems xs

def plainFields : Doc → Bool
  | [] => true
  | (_, v) :: fs => plainVal v && plainFields fs

end

def plainOptDoc : Option Doc → Bool
  | none => true
  | some d => plainFields d

/-- A handler outcome: a JSON response with an HTTP status code, or an
HTTPException with a status code and detail message. -/
inductive HResp where
  | ok (code : Nat) (body : Value) : HResp
  | err (code : Nat) (detail : String) : HResp
deriving Repr, DecidableEq

def HResp.code : HResp → Nat
  | HResp.ok c _ => c
  | HResp.err c _ => c

def HResp.isOk : HResp → Bool
  | HResp.ok _ _ => true
  | HResp.err _ _ => false

/-- An optional document as a JSON body (None serializes to null). -/
def optObj : Option Doc → Value
  | none => Value.null
  | some d => Value.obj d

/-- POST /crm/records (src/main.py lines 69-104). `now` stands for
`datetime.utcnow()` and `newId` for the ObjectId assigned by
`insert_one`, which pymongo appends to the inserted dict. -/
def create_record (store : List Doc) (record : Doc) (now : String)
    (newId : String) : HResp × List Doc :=
  let record_dict := dropNone record
  let record_dict := setKey record_dict "created_at" (Value.dt now)
  let record_dict := setKey record_dict "updated_at" (Value.dt now)
  let stored := setKey record_dict "_id" (Value.oid newId)
  let store' := store ++ [stored]
  (HResp.ok 201 (Value.obj
      [("message", Value.str "Registro criado com sucesso"),
       ("id", Value.str newId),
       ("record", optObj (serialize_mongo_document (findOneById store' newId)))]),
   store')

/-- Timestamping of one batch element (src/main.py lines 120-123). -/
def stampRecord (now : String) (record : Doc) : Doc :=
  setKey (setKey (dropNone record) "created_at" (Value.dt now))
    "updated_at" (Value.dt now)

/-- POST /crm/records/batch (src/main.py lines 107-138). `newIds` stands
for the ObjectIds assigned by `insert_many`, one per inserted dict. -/
def create_records_batch (store : List Doc) (records : List Doc)
    (now : String) (newIds : List String) : HResp × List Doc :=
  let records_dict := records.map (stampRecord now)
  let stored := List.zipWith (fun d i => setKey d "_id" (Value.oid i))
    records_dict newIds
  let insertedIds := newIds.take records_dict.length
  let store' := store ++ stored
  (HResp.ok 201 (Value.obj
      [("message", Value.str (toString insertedIds.length ++ " registros criados com sucesso")),
       ("ids", Value.arr (insertedIds.map Value.str)),
       ("count", Value.int insertedIds.length)]),
   store')

/-- GET /crm/records/{record_id} (src/main.py lines 177-214). -/
def get_record_by_id (store : List Doc) (record_id : String) : HResp :=
  if !(isValidObjectId record_id) then
    HResp.err 400 "ID inválido. O ID deve ser um ObjectId válido do MongoDB."
  else
    match findOneById store record_id with
    | none => HResp.err 404 "Registro não encontrado"
    | some record => HResp.ok 200 (Value.obj (serializeFields record))

/-- The dict passed as `$set` by update_record (src/main.py lines
244-252): the non-null payload fields, a fresh `updated_at`, and the
prior `created_at` when the payload carries none and the prior document
has one. -/
def updateRecordDict (record existing_record : Doc) (now : String) : Doc :=
  let record_dict := dropNone record
  let record_dict := setKey record_dict "updated_at" (Value.dt now)
  match getKey record_dict "created_at", getKey existing_record "created_at" with
  | none, some c => setKey record_dict "created_at" c
  | _, _ => record_dict

/-- PUT /crm/records/{record_id} (src/main.py lines 217-282). The store
reports modified_count zero exactly when the `$set`-merged document
equals the prior one. -/
def update_record (store : List Doc) (record_id : String) (record : Doc)
    (now : String) : HResp × List Doc :=
  if !(isValidObjectId record_id) then
    (HResp.err 400 "ID inválido. O ID deve ser um ObjectId válido do MongoDB.", store)
  else
    match findOneById store record_id with
    | none => (HResp.err 404 "Registro não encontrado", store)
    | some existing_record =>
      let record_dict := updateRecordDict record existing_record now
      let newDoc := applySet existing_record record_dict
      if newDoc = existing_record then
        (HResp.err 400 "Nenhuma alteração foi feita no registro", store)
      else
        let store' := updateFirstById store record_id newDoc
        (HResp.ok 200 (Value.obj
            [("message", Value.str "Registro atualizado com sucesso"),
             ("id", Value.str record_id),
             ("record", optObj (serialize_mongo_document (findOneById store' record_id)))]),
         store')

/-- GET /config (src/main.py lines 341-379): the canonical empty
structure when the collection is empty, otherwise the single document
with `_id` popped and then serialized. -/
def get_config (cfgs : List Doc) : HResp :=
  match cfgs.head? with
  | none => HResp.ok 200 (Value.obj
      [("consultor", Value.arr []),
       ("status", Value.arr []),
       ("servicos", Value.arr []),
       ("plano", Value.arr []),
       ("pacote_sva", Value.arr [])])
  | some config =>
      HResp.ok 200 (Value.obj (serializeFields (eraseKey config "_id")))

/-- Shared tail of the config write handlers (src/main.py lines 420-428
and 473-481): re-read the singleton, pop `_id`, serialize, respond. The
collection cannot be empty after the write, so the `none` branch (an
AttributeError caught by the broad handler) is unreachable. -/
def configWriteResponse (code : Nat) (message : String) (catchDetail : String)
    (cfgs : List Doc) : HResp :=
  match cfgs.head? with
  | none => HResp.err 500 catchDetail
  | some d => HResp.ok code (Value.obj
      [("message", Value.str message),
       ("config", Value.obj (serializeFields (eraseKey d "_id")))])

/-- POST /config (src/main.py lines 382-436). With an existing document
the original `created_at` is kept and `replace_one` is issued, reporting
modified_count zero exactly when nothing changed, which the handler turns
into a 500; otherwise the stamped dict is inserted as a new document. -/
def create_config (cfgs : List Doc) (config : Doc) (now : String)
    (newId : String) : HResp × List Doc :=
  let config_dict := dropNone config
  let config_dict := setKey config_dict "created_at" (Value.dt now)
  let config_dict := setKey config_dict "updated_at" (Value.dt now)
  match cfgs.head? with
  | some existing_config =>
    let config_dict := setKey config_dict "created_at"
        (getKeyD existing_config "created_at" (Value.dt now))
    let newDoc := replaceKeepId existing_config config_dict
    if newDoc = existing_config then
      (HResp.err 500 "Erro ao atualizar configuração", cfgs)
    else
      let cfgs' := replaceFirst cfgs newDoc
      (configWriteResponse 201 "Configuração atualizada com sucesso"
        "Erro ao salvar configuração" cfgs', cfgs')
  | none =>
    let cfgs' := cfgs ++ [setKey config_dict "_id" (Value.oid newId)]
    (configWriteResponse 201 "Configuração criada com sucesso"
      "Erro ao salvar configuração" cfgs', cfgs')

/-- The dict passed to `replace_one` by update_config (src/main.py lines
457-462): non-null payload fields, the prior `created_at` (defaulting to
now), and a fresh `updated_at`. -/
def updateConfigDict (config existing_config : Doc) (now : String) : Doc :=
  let config_dict := dropNone config
  let config_dict := setKey config_dict "created_at"
      (getKeyD existing_config "created_at" (Value.dt now))
  setKey config_dict "updated_at" (Value.dt now)

/-- PUT /config (src/main.py lines 439-489): 404 when the collection is
empty, otherwise replace the singleton, turning a zero-modified result
into a 400. -/
def update_config (cfgs : List Doc) (config : Doc) (now : String) :
    HResp × List Doc :=
  match cfgs.head? with
  | none => (HResp.err 404
      "Configuração não encontrada. Use POST para criar uma nova configuração.", cfgs)
  | some existing_config =>
    let config_dict := updateConfigDict config existing_config now
    let newDoc := replaceKeepId existing_config config_dict
    if newDoc = existing_config then
      (HResp.err 400 "Nenhuma alteração foi feita na configuração", cfgs)
    else
      let cfgs' := replaceFirst cfgs newDoc
      (configWriteResponse 200 "Configuração atualizada com sucesso"
        "Erro ao atualizar configuração" cfgs', cfgs')

/-- A concrete stored record used to evaluate the handlers on explicit
inputs: one business record with a valid ObjectId, one data field and the
two server timestamps. -/
def exDoc : Doc :=
  [("_id", Value.oid "aaaaaaaaaaaaaaaaaaaaaaaa"),
   ("uf", Value.str "SP"),
   ("created_at", Value.dt "2024-01-01T00:00:00"),
   ("updated_at", Value.dt "2024-01-01T00:00:00")]

def exStore : List Doc := [exDoc]

def exId : String := "aaaaaaaaaaaaaaaaaaaaaaaa"

/-- A concrete stored configuration document. -/
def exCfg : Doc :=
  [("_id", Value.oid "cccccccccccccccccccccccc"),
   ("status", Value.arr [Value.str "Ativo"]),
   ("created_at", Value.dt "2024-01-01T00:00:00"),
   ("updated_at", Value.dt "2024-01-02T00:00:00")]

/-- A concrete plain document (no ObjectId, no datetime anywhere). -/
def exPlainDoc : Doc :=
  [("uf", Value.str "SP"),
   ("qtd", Value.int 5),
   ("plano", Value.obj [("name", Value.str "Basico"), ("value", Value.int 99)]),
   ("tags", Value.arr [Value.str "a", Value.bool true, Value.null,
     Value.obj [("x", Value.int 1)]])]

/-! ### Basic dictionary lemmas -/

theorem getKey_eq_none_of_hasKey_false {d : Doc} {k : String}
    (h : hasKey d k = false) : getKey d k = none := by
  unfold hasKey at h
  cases hg : getKey d k with
  | none => rfl
  | some v => rw [hg] at h; simp at h

theorem hasKey_false_of_getKey_none {d : Doc} {k : String}
    (h : getKey d k = none) : hasKey d k = false := by
  simp [hasKey, h]

theorem getKey_setKey_self (d : Doc) (k : String) (v : Value) :
    getKey (setKey d k v) k = some v := by
  induction d with
  | nil => simp [setKey, getKey]
  | cons kv fs ih =>
    obtain ⟨k1, v1⟩ := kv
    by_cases h : k1 = k
    · simp [setKey, h, getKey]
    · simp [setKey, h, getKey, ih]

theorem getKey_setKey_ne (d : Doc) (k k' : String) (v : Value) (h : k' ≠ k) :
    getKey (setKey d k v) k' = getKey d k' := by
  have h2 : ¬(k = k') := fun hh => h hh.symm
  induction d with
  | nil => simp [setKey, getKey, h2]
  | cons kv fs ih =>
    obtain ⟨k1, v1⟩ := kv
    by_cases h1 : k1 = k
    · subst h1
      simp [setKey, getKey, h2]
    · simp only [setKey, if_neg h1]
      by_cases h3 : k1 = k'
      · simp [getKey, h3]
      · simp [getKey, h3, ih]

theorem setKey_absent_eq_append (d : Doc) (k : String) (v : Value)
    (h : hasKey d k = false) : setKey d k v = d ++ [(k, v)] := by
  induction d with
  | nil => simp [setKey]
  | cons kv fs ih =>
    obtain ⟨k1, v1⟩ := kv
    have hg := getKey_eq_none_of_hasKey_false h
    by_cases h1 : k1 = k
    · rw [getKey, if_pos h1] at hg; simp at hg
    · rw [getKey, if_neg h1] at hg
      simp [setKey, h1, ih (hasKey_false_of_getKey_none hg)]

theorem getKey_append (d e : Doc) (k : String) :
    getKey (d ++ e) k =
      match getKey d k with
      | some v => some v
      | none => getKey e k := by
  induction d with
  | nil => simp [getKey]
  | cons kv fs ih =>
    obtain ⟨k1, v1⟩ := kv
    by_cases h1 : k1 = k
    · simp [getKey, h1]
    · simp [getKey, h1, ih]

theorem setKey_eq_of_getKey {d : Doc} {k : String} {v : Value}
    (h : getKey d k = some v) : setKey d k v = d := by
  induction d with
  | nil => simp [getKey] at h
  | cons kv fs ih =>
    obtain ⟨k1, v1⟩ := kv
    by_cases h1 : k1 = k
    · rw [getKey, if_pos h1] at h
      injection h with h2
      simp [setKey, h1, h2]
    · rw [getKey, if_neg h1] at h
      simp [setKey, h1, ih h]

theorem setKey_setKey_self (d : Doc) (k : String) (v w : Value) :
    setKey (setKey d k v) k w = setKey d k w := by
  induction d with
  | nil => simp [setKey]
  | cons kv fs ih =>
    obtain ⟨k1, v1⟩ := kv
    by_cases h1 : k1 = k
    · simp [setKey, h1]
    · simp [setKey, h1, ih]

theorem setKey_setKey_comm_of_present (d : Doc) (k k' : String) (v w : Value)
    (hne : k ≠ k') (hk' : hasKey d k' = true) :
    setKey (setKey d k v) k' w = setKey (setKey d k' w) k v := by
  have hne' : ¬(k' = k) := fun hh => hne hh.symm
  induction d with
  | nil => simp [hasKey, getKey] at hk'
  | cons kv fs ih =>
    obtain ⟨k1, v1⟩ := kv
    by_cases h1 : k1 = k
    · subst h1
      have h2 : ¬(k1 = k') := fun hh => hne hh
      simp [setKey, h2, hne']
    · by_cases h2 : k1 = k'
      · subst h2
        simp [setKey, h1, hne']
      · have hk'fs : hasKey fs k' = true := by
          simpa [hasKey, getKey, h2] using hk'
        simp [setKey, h1, h2, ih hk'fs]

/-! ### dropNone, nodupKeys, noNulls -/

theorem dropNone_idem (d : Doc) : dropNone (dropNone d) = dropNone d := by
  simp [dropNone, List.filter_filter]

theorem dropNone_cons_null {k1 : String} {v1 : Value} (fs : Doc)
    (h : v1 = Value.null) :
    dropNone ((k1, v1) :: fs) = dropNone fs := by
  simp [dropNone, List.filter, h]

theorem dropNone_cons_keep {k1 : String} {v1 : Value} (fs : Doc)
    (h : ¬(v1 = Value.null)) :
    dropNone ((k1, v1) :: fs) = (k1, v1) :: dropNone fs := by
  simp [dropNone, List.filter, h]

theorem hasKey_dropNone_false {d : Doc} {k : String}
    (h : hasKey d k = false) : hasKey (dropNone d) k = false := by
  induction d with
  | nil => simp [dropNone, hasKey, getKey]
  | cons kv fs ih =>
    obtain ⟨k1, v1⟩ := kv
    have hg := getKey_eq_none_of_hasKey_false h
    by_cases h1 : k1 = k
    · rw [getKey, if_pos h1] at hg; simp at hg
    · rw [getKey, if_neg h1] at hg
      have ihh := ih (hasKey_false_of_getKey_none hg)
      by_cases h2 : v1 = Value.null
      · rw [dropNone_cons_null fs h2]
        exact ihh
      · rw [dropNone_cons_keep fs h2]
        apply hasKey_false_of_getKey_none
        rw [getKey, if_neg h1]
        exact getKey_eq_none_of_hasKey_false ihh

theorem nodupKeys_dropNone {d : Doc} (h : nodupKeys d = true) :
    nodupKeys (dropNone d) = true := by
  induction d with
  | nil => rfl
  | cons kv fs ih =>
    obtain ⟨k1, v1⟩ := kv
    rw [nodupKeys, Bool.and_eq_true, Bool.not_eq_true'] at h
    obtain ⟨hk, hnd⟩ := h
    by_cases h2 : v1 = Value.null
    · rw [dropNone_cons_null fs h2]
      exact ih hnd
    · rw [dropNone_cons_keep fs h2]
      rw [nodupKeys, Bool.and_eq_true, Bool.not_eq_true']
      exact ⟨hasKey_dropNone_false hk, ih hnd⟩

theorem noNulls_dropNone (d : Doc) : noNulls (dropNone d) = true := by
  induction d with
  | nil => simp [dropNone, noNulls]
  | cons kv fs ih =>
    obtain ⟨k1, v1⟩ := kv
    by_cases h2 : v1 = Value.null
    · rw [dropNone_cons_null fs h2]
      exact ih
    · rw [dropNone_cons_keep fs h2]
      rw [noNulls, List.all_cons, Bool.and_eq_true]
      refine ⟨by simp [h2], ?_⟩
      simpa [noNulls] using ih

theorem noNulls_setKey {d : Doc} {k : String} {v : Value}
    (hd : noNulls d = true) (hv : v ≠ Value.null) :
    noNulls (setKey d k v) = true := by
  induction d with
  | nil => simp [setKey, noNulls, hv]
  | cons kv fs ih =>
    obtain ⟨k1, v1⟩ := kv
    rw [noNulls, List.all_cons, Bool.and_eq_true] at hd
    obtain ⟨h1, hfs⟩ := hd
    by_cases hk : k1 = k
    · rw [setKey, if_pos hk, noNulls, List.all_cons]
      simp [hv, hfs]
    · rw [setKey, if_neg hk, noNulls, List.all_cons]
      have hrec := ih hfs
      rw [noNulls] at hrec
      simp [h1, hrec]

theorem nodupKeys_append_single {d : Doc} {k : String} {v : Value}
    (hd : nodupKeys d = true) (hk : hasKey d k = false) :
    nodupKeys (d ++ [(k, v)]) = true := by
  induction d with
  | nil => simp [nodupKeys, hasKey, getKey]
  | cons kv fs ih =>
    obtain ⟨k1, v1⟩ := kv
    rw [nodupKeys, Bool.and_eq_true, Bool.not_eq_true'] at hd
    obtain ⟨h1, hfs⟩ := hd
    have hg := getKey_eq_none_of_hasKey_false hk
    by_cases hx : k1 = k
    · rw [getKey, if_pos hx] at hg; simp at hg
    · rw [getKey, if_neg hx] at hg
      rw [List.cons_append, nodupKeys, Bool.and_eq_true, Bool.not_eq_true']
      refine ⟨?_, ih hfs (hasKey_false_of_getKey_none hg)⟩
      apply getKey_eq_none_of_hasKey_false at h1
      apply hasKey_false_of_getKey_none
      have hkk1 : ¬(k = k1) := fun hh => hx hh.symm
      rw [getKey_append]
      simp [h1, getKey, hkk1]

theorem nodupKeys_setKey_absent {d : Doc} {k : String} {v : Value}
    (hd : nodupKeys d = true) (hk : hasKey d k = false) :
    nodupKeys (setKey d k v) = true := by
  rw [setKey_absent_eq_append d k v hk]
  exact nodupKeys_append_single hd hk

/-! ### applySet lemmas -/

theorem applySet_getKey_absent (u : Doc) (d : Doc) (k : String)
    (h : hasKey u k = false) : getKey (applySet d u) k = getKey d k := by
  induction u generalizing d with
  | nil => simp [applySet]
  | cons kv rest ih =>
    obtain ⟨k1, v1⟩ := kv
    have hg := getKey_eq_none_of_hasKey_false h
    by_cases h1 : k1 = k
    · rw [getKey, if_pos h1] at hg; simp at hg
    · rw [getKey, if_neg h1] at hg
      rw [applySet, ih _ (hasKey_false_of_getKey_none hg)]
      exact getKey_setKey_ne d k1 k v1 (fun hh => h1 hh.symm)

theorem applySet_getKey_present (u : Doc) :
    ∀ (d : Doc) (k : String) (v : Value), nodupKeys u = true →
      getKey u k = some v → getKey (applySet d u) k = some v := by
  induction u with
  | nil =>
    intro d k v _ h
    simp [getKey] at h
  | cons kv rest ih =>
    obtain ⟨k1, v1⟩ := kv
    intro d k v hu h
    rw [nodupKeys, Bool.and_eq_true, Bool.not_eq_true'] at hu
    obtain ⟨h1, hrest⟩ := hu
    by_cases hk : k1 = k
    · subst hk
      rw [getKey, if_pos rfl] at h
      injection h with h2
      rw [applySet, applySet_getKey_absent rest _ _ h1,
        getKey_setKey_self, h2]
    · rw [getKey, if_neg hk] at h
      rw [applySet]
      exact ih (setKey d k1 v1) k v hrest h

theorem applySet_eq_self (u : Doc) :
    ∀ (d : Doc), nodupKeys u = true →
      (∀ k v, getKey u k = some v → getKey d k = some v) →
      applySet d u = d := by
  induction u with
  | nil =>
    intro d _ _
    rfl
  | cons kv rest ih =>
    obtain ⟨k1, v1⟩ := kv
    intro d hu h
    rw [nodupKeys, Bool.and_eq_true, Bool.not_eq_true'] at hu
    obtain ⟨h1, hrest⟩ := hu
    have hd1 : getKey d k1 = some v1 := by
      apply h
      rw [getKey, if_pos rfl]
    rw [applySet, setKey_eq_of_getKey hd1]
    apply ih d hrest
    intro k v hkv
    apply h
    have hne : ¬(k1 = k) := by
      intro hh
      subst hh
      rw [getKey_eq_none_of_hasKey_false h1] at hkv
      exact Option.noConfusion hkv
    rw [getKey, if_neg hne]
    exact hkv

/-! ### findOneById lemmas -/

theorem findOneById_id {store : List Doc} {id : String} {d : Doc}
    (h : findOneById store id = some d) :
    getKey d "_id" = some (Value.oid id) := by
  induction store with
  | nil => simp [findOneById] at h
  | cons e es ih =>
    rw [findOneById] at h
    by_cases he : getKey e "_id" = some (Value.oid id)
    · rw [if_pos he] at h
      injection h with h2
      subst h2
      exact he
    · rw [if_neg he] at h
      exact ih h

theorem findOneById_updateFirstById {store : List Doc} {id : String}
    {e : Doc} (nd : Doc) (h : findOneById store id = some e)
    (hnd : getKey nd "_id" = some (Value.oid id)) :
    findOneById (updateFirstById store id nd) id = some nd := by
  induction store with
  | nil => simp [findOneById] at h
  | cons d ds ih =>
    rw [findOneById] at h
    by_cases hd : getKey d "_id" = some (Value.oid id)
    · rw [updateFirstById, if_pos hd, findOneById, if_pos hnd]
    · rw [if_neg hd] at h
      rw [updateFirstById, if_neg hd, findOneById, if_neg hd]
      exact ih h

theorem findOneById_append_fresh {store : List Doc} {id : String} {d : Doc}
    (h : findOneById store id = none)
    (hd : getKey d "_id" = some (Value.oid id)) :
    findOneById (store ++ [d]) id = some d := by
  induction store with
  | nil => simp [findOneById, hd]
  | cons e es ih =>
    rw [findOneById] at h
    by_cases he : getKey e "_id" = some (Value.oid id)
    · rw [if_pos he] at h; exact Option.noConfusion h
    · rw [if_neg he] at h
      rw [List.cons_append, findOneById, if_neg he]
      exact ih h

/-! ### Normalizer lemmas -/

theorem serializeFields_append (d e : Doc) :
    serializeFields (d ++ e) = serializeFields d ++ serializeFields e := by
  induction d with
  | nil => simp [serializeFields]
  | cons kv fs ih =>
    obtain ⟨k1, v1⟩ := kv
    simp [serializeFields, ih]

mutual

theorem serializeVal_idem : ∀ v, serializeVal (serializeVal v) = serializeVal v
  | Value.null => rfl
  | Value.bool _ => rfl
  | Value.int _ => rfl
  | Value.str _ => rfl
  | Value.oid _ => rfl
  | Value.dt _ => rfl
  | Value.arr xs => by simp [serializeVal, serializeItems_idem xs]
  | Value.obj fs => by simp [serializeVal, serializeFields_idem fs]

theorem serializeItem_idem : ∀ v, serializeItem (serializeItem v) = serializeItem v
  | Value.null => rfl
  | Value.bool _ => rfl
  | Value.int _ => rfl
  | Value.str _ => rfl
  | Value.oid _ => rfl
  | Value.dt _ => rfl
  | Value.arr _ => rfl
  | Value.obj fs => by simp [serializeItem, serializeFields_idem fs]

theorem serializeItems_idem : ∀ xs, serializeItems (serializeItems xs) = serializeItems xs
  | [] => rfl
  | x :: xs => by simp [serializeItems, serializeItem_idem x, serializeItems_idem xs]

theorem serializeFields_idem : ∀ fs, serializeFields (serializeFields fs) = serializeFields fs
  | [] => rfl
  | (k, v) :: fs => by simp [serializeFields, serializeVal_idem v, serializeFields_idem fs]

end

mutual

theorem serializeVal_plain : ∀ v, plainVal v = true → serializeVal v = v
  | Value.null, _ => rfl
  | Value.bool _, _ => rfl
  | Value.int _, _ => rfl
  | Value.str _, _ => rfl
  | Value.oid _, h => by simp [plainVal] at h
  | Value.dt _, h => by simp [plainVal] at h
  | Value.arr xs, h => by
      rw [plainVal] at h
      simp [serializeVal, serializeItems_plain xs h]
  | Value.obj fs, h => by
      rw [plainVal] at h
      simp [serializeVal, serializeFields_plain fs h]

theorem serializeItem_plain : ∀ v, plainItem v = true → serializeItem v = v
  | Value.null, _ => rfl
  | Value.bool _, _ => rfl
  | Value.int _, _ => rfl
  | Value.str _, _ => rfl
  | Value.oid _, h => by simp [plainItem] at h
  | Value.dt _, h => by simp [plainItem] at h
  | Value.arr _, _ => rfl
  | Value.obj fs, h => by
      rw [plainItem] at h
      simp [serializeItem, serializeFields_plain fs h]

theorem serializeItems_plain : ∀ xs, plainItems xs = true → serializeItems xs = xs
  | [], _ => rfl
  | x :: xs, h => by
      rw [plainItems, Bool.and_eq_true] at h
      simp [serializeItems, serializeItem_plain x h.1, serializeItems_plain xs h.2]

theorem serializeFields_plain : ∀ fs, plainFields fs = true → serializeFields fs = fs
  | [], _ => rfl
  | (k, v) :: fs, h => by
      rw [plainFields, Bool.and_eq_true] at h
      simp [serializeFields, serializeVal_plain v h.1, serializeFields_plain fs h.2]

end

/-! ### Characterization of the update_record $set dict -/

theorem updateRecordDict_eq_none (record existing : Doc) (now : String)
    (hpc : hasKey (dropNone record) "created_at" = false)
    (hex : getKey existing "created_at" = none) :
    updateRecordDict record existing now =
      setKey (dropNone record) "updated_at" (Value.dt now) := by
  have F0 : getKey (setKey (dropNone record) "updated_at" (Value.dt now))
      "created_at" = none := by
    rw [getKey_setKey_ne _ _ _ _ (by decide)]
    exact getKey_eq_none_of_hasKey_false hpc
  simp [updateRecordDict, F0, hex]

theorem updateRecordDict_eq_some (record existing : Doc) (now : String)
    (c : Value) (hpc : hasKey (dropNone record) "created_at" = false)
    (hex : getKey existing "created_at" = some c) :
    updateRecordDict record existing now =
      setKey (setKey (dropNone record) "updated_at" (Value.dt now))
        "created_at" c := by
  have F0 : getKey (setKey (dropNone record) "updated_at" (Value.dt now))
      "created_at" = none := by
    rw [getKey_setKey_ne _ _ _ _ (by decide)]
    exact getKey_eq_none_of_hasKey_false hpc
  simp [updateRecordDict, F0, hex]

theorem nodupKeys_updateRecordDict (record existing : Doc) (now : String)
    (hnod : nodupKeys record = true)
    (hpc : hasKey (dropNone record) "created_at" = false)
    (hpu : hasKey (dropNone record) "updated_at" = false) :
    nodupKeys (updateRecordDict record existing now) = true := by
  have hD := nodupKeys_dropNone hnod
  have hbase : nodupKeys (setKey (dropNone record) "updated_at"
      (Value.dt now)) = true := nodupKeys_setKey_absent hD hpu
  have F0 : hasKey (setKey (dropNone record) "updated_at" (Value.dt now))
      "created_at" = false := by
    apply hasKey_false_of_getKey_none
    rw [getKey_setKey_ne _ _ _ _ (by decide)]
    exact getKey_eq_none_of_hasKey_false hpc
  cases hex : getKey existing "created_at" with
  | none =>
    rw [updateRecordDict_eq_none record existing now hpc hex]
    exact hbase
  | some c =>
    rw [updateRecordDict_eq_some record existing now c hpc hex]
    exact nodupKeys_setKey_absent hbase F0

theorem getKey_updateRecordDict_updated (record existing : Doc) (now : String)
    (hpc : hasKey (dropNone record) "created_at" = false) :
    getKey (updateRecordDict record existing now) "updated_at" =
      some (Value.dt now) := by
  cases hex : getKey existing "created_at" with
  | none =>
    rw [updateRecordDict_eq_none record existing now hpc hex]
    exact getKey_setKey_self _ _ _
  | some c =>
    rw [updateRecordDict_eq_some record existing now c hpc hex,
      getKey_setKey_ne _ _ _ _ (by decide)]
    exact getKey_setKey_self _ _ _

theorem getKey_updateRecordDict_created (record existing : Doc) (now : String)
    (hpc : hasKey (dropNone record) "created_at" = false) :
    getKey (updateRecordDict record existing now) "created_at" =
      getKey existing "created_at" := by
  cases hex : getKey existing "created_at" with
  | none =>
    rw [updateRecordDict_eq_none record existing now hpc hex,
      getKey_setKey_ne _ _ _ _ (by decide)]
    exact getKey_eq_none_of_hasKey_false hpc
  | some c =>
    rw [updateRecordDict_eq_some record existing now c hpc hex]
    exact getKey_setKey_self _ _ _

theorem getKey_updateRecordDict_other (record existing : Doc) (now : String)
    (hpc : hasKey (dropNone record) "created_at" = false) (k : String)
    (h1 : ¬(k = "updated_at")) (h2 : ¬(k = "created_at")) :
    getKey (updateRecordDict record existing now) k =
      getKey (dropNone record) k := by
  cases hex : getKey existing "created_at" with
  | none =>
    rw [updateRecordDict_eq_none record existing now hpc hex]
    exact getKey_setKey_ne _ _ _ _ h1
  | some c =>
    rw [updateRecordDict_eq_some record existing now c hpc hex,
      getKey_setKey_ne _ _ _ _ h2]
    exact getKey_setKey_ne _ _ _ _ h1

/-! ### State of the store after a successful update_record -/

theorem update_record_success_state (store : List Doc) (id : String)
    (record : Doc) (now : String) (existing : Doc)
    (hid : isValidObjectId id = true)
    (hfind : findOneById store id = some existing)
    (hpc : hasKey (dropNone record) "created_at" = false)
    (hpi : hasKey (dropNone record) "_id" = false)
    (hne : applySet existing (updateRecordDict record existing now) ≠ existing) :
    findOneById (update_record store id record now).2 id =
      some (applySet existing (updateRecordDict record existing now)) := by
  have hstore : (update_record store id record now).2 =
      updateFirstById store id
        (applySet existing (updateRecordDict record existing now)) := by
    simp [update_record, hid, hfind, hne]
  rw [hstore]
  apply findOneById_updateFirstById _ hfind
  have hu_id : hasKey (updateRecordDict record existing now) "_id" = false := by
    apply hasKey_false_of_getKey_none
    rw [getKey_updateRecordDict_other record existing now hpc "_id"
      (by decide) (by decide)]
    exact getKey_eq_none_of_hasKey_false hpi
  rw [applySet_getKey_absent _ _ _ hu_id]
  exact findOneById_id hfind

/-! ### Claims C4 and C5: algebraic laws of the normalizer -/

/-- Claim C4: for every document D (including the absent document) with
no ObjectId and no datetime at any position the normalizer converts,
serialize_mongo_document maps D to itself; in particular the absent
document maps to the absent document with no error. -/
theorem C4_serialize_identity (D : Option Doc) (h : plainOptDoc D = true) :
    serialize_mongo_document D = D ∧ serialize_mongo_document none = none := by
  constructor
  · cases D with
    | none => rfl
    | some d =>
      rw [plainOptDoc] at h
      rw [serialize_mongo_document, serializeFields_plain d h]
  · rfl

/-- Witness for C4 at a concrete nested identifier-free document. -/
theorem C4_witness :
    plainOptDoc (some exPlainDoc) = true ∧
    (serialize_mongo_document (some exPlainDoc) = some exPlainDoc ∧
      serialize_mongo_document none = none) :=
  ⟨by decide, C4_serialize_identity (some exPlainDoc) (by decide)⟩

/-- Claim C5: the normalizer is idempotent: applying
serialize_mongo_document twice equals applying it once, for every
document. -/
theorem C5_serialize_idempotent (D : Option Doc) :
    serialize_mongo_document (serialize_mongo_document D) =
      serialize_mongo_document D := by
  cases D with
  | none => rfl
  | some d =>
    rw [serialize_mongo_document, serialize_mongo_document,
      serializeFields_idem d]

/-! ### Claim C1: update_record merges rather than replacing wholesale -/

/-- Claim C1 counterexample: at a concrete store and payload the update
succeeds, yet the field `uf` of the prior document — absent from the
payload — is still present in the stored document afterwards, so the
update is not a wholesale replacement. -/
theorem C1_counterexample :
    (update_record exStore exId [("ddd", Value.str "11")]
      "2024-06-01T12:00:00").1.isOk = true ∧
    hasKey [("ddd", Value.str "11")] "uf" = false ∧
    (findOneById (update_record exStore exId [("ddd", Value.str "11")]
      "2024-06-01T12:00:00").2 exId).map (fun d => hasKey d "uf") =
      some true := by decide

/-- Claim C1 (amended): PUT /crm/records/id is a `$set` merge, not a
wholesale replacement: after a successful update the stored document
carries the fresh `updated_at`, each non-null payload field with its
payload value, and every key absent from the payload (other than
`updated_at`) keeps the value it had in the prior document — in
particular no prior field is removed. -/
theorem C1_update_is_merge (store : List Doc) (id : String) (record : Doc)
    (now : String) (existing : Doc)
    (hid : isValidObjectId id = true)
    (hfind : findOneById store id = some existing)
    (hnod : nodupKeys record = true)
    (hpc : hasKey (dropNone record) "created_at" = false)
    (hpu : hasKey (dropNone record) "updated_at" = false)
    (hpi : hasKey (dropNone record) "_id" = false)
    (hsucc : (update_record store id record now).1.isOk = true) :
    ∃ post, findOneById (update_record store id record now).2 id = some post ∧
      getKey post "updated_at" = some (Value.dt now) ∧
      (∀ k v, ¬(k = "updated_at") → getKey (dropNone record) k = some v →
        getKey post k = some v) ∧
      (∀ k, ¬(k = "updated_at") → getKey (dropNone record) k = none →
        getKey post k = getKey existing k) := by
  have hne : applySet existing (updateRecordDict record existing now) ≠ existing := by
    intro heq
    simp [update_record, hid, hfind, heq, HResp.isOk] at hsucc
  have hu := nodupKeys_updateRecordDict record existing now hnod hpc hpu
  refine ⟨applySet existing (updateRecordDict record existing now),
    update_record_success_state store id record now existing hid hfind hpc hpi hne,
    ?_, ?_, ?_⟩
  · exact applySet_getKey_present _ _ _ _ hu
      (getKey_updateRecordDict_updated record existing now hpc)
  · intro k v hku hkD
    have hkc : ¬(k = "created_at") := by
      intro hh
      subst hh
      rw [getKey_eq_none_of_hasKey_false hpc] at hkD
      exact Option.noConfusion hkD
    apply applySet_getKey_present _ _ _ _ hu
    rw [getKey_updateRecordDict_other record existing now hpc k hku hkc]
    exact hkD
  · intro k hku hkD
    by_cases hkc : k = "created_at"
    · subst hkc
      cases hv : getKey (updateRecordDict record existing now) "created_at" with
      | none =>
        rw [applySet_getKey_absent _ _ _ (hasKey_false_of_getKey_none hv)]
      | some w =>
        rw [applySet_getKey_present _ _ _ _ hu hv]
        rw [getKey_updateRecordDict_created record existing now hpc] at hv
        exact hv.symm
    · have hgu : getKey (updateRecordDict record existing now) k = none := by
        rw [getKey_updateRecordDict_other record existing now hpc k hku hkc]
        exact hkD
      rw [applySet_getKey_absent _ _ _ (hasKey_false_of_getKey_none hgu)]

/-- Witness for the amended C1 at a concrete store and payload. -/
theorem C1_witness :
    ∃ post, findOneById (update_record exStore exId [("ddd", Value.str "11")]
        "2024-06-01T12:00:00").2 exId = some post ∧
      getKey post "updated_at" = some (Value.dt "2024-06-01T12:00:00") ∧
      (∀ k v, ¬(k = "updated_at") →
        getKey (dropNone [("ddd", Value.str "11")]) k = some v →
        getKey post k = some v) ∧
      (∀ k, ¬(k = "updated_at") →
        getKey (dropNone [("ddd", Value.str "11")]) k = none →
        getKey post k = getKey exDoc k) :=
  C1_update_is_merge exStore exId [("ddd", Value.str "11")]
    "2024-06-01T12:00:00" exDoc (by decide) (by decide) (by decide)
    (by decide) (by decide) (by decide) (by decide)

/-! ### Claim C2: identical payload does not in general give NoChange -/

/-- Claim C2 counterexample: the stored record has data field `uf = SP`
and the payload is exactly that stored state; still the update responds
200, because the handler always stamps a fresh `updated_at`, which makes
the `$set` modify the document whenever the clock has advanced past the
stored modification timestamp. -/
theorem C2_counterexample :
    (update_record exStore exId [("uf", Value.str "SP")]
      "2024-06-01T12:00:00").1.isOk = true ∧
    (update_record exStore exId [("uf", Value.str "SP")]
      "2024-06-01T12:00:00").1.code = 200 := by decide

/-- Claim C2 (amended): for an existing record and a payload identical
to its current stored state, the update returns NoChange (400, store
untouched) exactly when the freshly stamped modification timestamp
coincides with the stored `updated_at`; whenever the fresh timestamp
differs from the stored one, the very same call succeeds with 200. -/
theorem C2_nochange_iff_timestamp_frozen (store : List Doc) (id : String)
    (record : Doc) (now : String) (existing : Doc)
    (hid : isValidObjectId id = true)
    (hfind : findOneById store id = some existing)
    (hnod : nodupKeys record = true)
    (hpc : hasKey (dropNone record) "created_at" = false)
    (hpu : hasKey (dropNone record) "updated_at" = false)
    (hmatch : ∀ k v, getKey (dropNone record) k = some v →
      getKey existing k = some v) :
    (getKey existing "updated_at" = some (Value.dt now) →
      update_record store id record now =
        (HResp.err 400 "Nenhuma alteração foi feita no registro", store)) ∧
    (¬(getKey existing "updated_at" = some (Value.dt now)) →
      (update_record store id record now).1.isOk = true ∧
      (update_record store id record now).1.code = 200) := by
  have hu := nodupKeys_updateRecordDict record existing now hnod hpc hpu
  constructor
  · intro hts
    have heq : applySet existing (updateRecordDict record existing now) = existing := by
      apply applySet_eq_self _ _ hu
      intro k v hkv
      by_cases hk1 : k = "updated_at"
      · subst hk1
        rw [getKey_updateRecordDict_updated record existing now hpc] at hkv
        injection hkv with h2
        rw [hts, h2]
      · by_cases hk2 : k = "created_at"
        · subst hk2
          rw [getKey_updateRecordDict_created record existing now hpc] at hkv
          exact hkv
        · rw [getKey_updateRecordDict_other record existing now hpc k hk1 hk2] at hkv
          exact hmatch k v hkv
    simp [update_record, hid, hfind, heq]
  · intro hts
    have hne : applySet existing (updateRecordDict record existing now) ≠ existing := by
      intro heq
      apply hts
      have hupd := applySet_getKey_present
        (updateRecordDict record existing now) existing "updated_at"
        (Value.dt now) hu
        (getKey_updateRecordDict_updated record existing now hpc)
      rw [heq] at hupd
      exact hupd
    constructor <;>
      simp [update_record, hid, hfind, hne, HResp.isOk, HResp.code]

/-- Witness for the amended C2: same store and identical payload, with
the clock frozen at the stored modification timestamp; both directions
of the amended claim are instantiated, and the frozen-clock NoChange
premise holds at this input. -/
theorem C2_witness :
    (getKey exDoc "updated_at" = some (Value.dt "2024-01-01T00:00:00") →
      update_record exStore exId [("uf", Value.str "SP")]
        "2024-01-01T00:00:00" =
        (HResp.err 400 "Nenhuma alteração foi feita no registro", exStore)) ∧
    (¬(getKey exDoc "updated_at" = some (Value.dt "2024-01-01T00:00:00")) →
      (update_record exStore exId [("uf", Value.str "SP")]
        "2024-01-01T00:00:00").1.isOk = true ∧
      (update_record exStore exId [("uf", Value.str "SP")]
        "2024-01-01T00:00:00").1.code = 200) :=
  C2_nochange_iff_timestamp_frozen exStore exId [("uf", Value.str "SP")]
    "2024-01-01T00:00:00" exDoc (by decide) (by decide) (by decide)
    (by decide) (by decide)
    (by
      intro k v h
      rw [show dropNone [("uf", Value.str "SP")] = [("uf", Value.str "SP")]
        from by decide] at h
      rw [getKey] at h
      by_cases hk : "uf" = k
      · rw [if_pos hk] at h
        injection h with h2
        subst hk
        rw [← h2]
        decide
      · rw [if_neg hk] at h
        exact Option.noConfusion h)

/-! ### Claim C3: updates preserve the stored creation timestamp -/

/-- Claim C3: when the payload carries no creation timestamp, PUT
/crm/records/id leaves the stored `created_at` exactly as it was
(whether the update succeeds or ends in NoChange), and PUT /config
keeps the configuration `created_at` of the existing document. -/
theorem C3_created_at_preserved (store : List Doc) (id : String)
    (record : Doc) (now : String) (existing : Doc)
    (hid : isValidObjectId id = true)
    (hfind : findOneById store id = some existing)
    (hnod : nodupKeys record = true)
    (hpc : hasKey (dropNone record) "created_at" = false)
    (hpu : hasKey (dropNone record) "updated_at" = false)
    (hpi : hasKey (dropNone record) "_id" = false)
    (cfgs : List Doc) (config : Doc) (cnow : String) (ecfg : Doc) (c : Value)
    (hcfg : cfgs.head? = some ecfg)
    (hc : getKey ecfg "created_at" = some c) :
    (∃ post, findOneById (update_record store id record now).2 id = some post ∧
      getKey post "created_at" = getKey existing "created_at") ∧
    (∃ postc, (update_config cfgs config cnow).2.head? = some postc ∧
      getKey postc "created_at" = some c) := by
  constructor
  · by_cases hne : applySet existing (updateRecordDict record existing now) = existing
    · have hstore : (update_record store id record now).2 = store := by
        simp [update_record, hid, hfind, hne]
      rw [hstore]
      exact ⟨existing, hfind, rfl⟩
    · refine ⟨applySet existing (updateRecordDict record existing now),
        update_record_success_state store id record now existing hid hfind hpc hpi hne, ?_⟩
      cases hv : getKey (updateRecordDict record existing now) "created_at" with
      | none =>
        rw [applySet_getKey_absent _ _ _ (hasKey_false_of_getKey_none hv)]
      | some w =>
        have hu := nodupKeys_updateRecordDict record existing now hnod hpc hpu
        rw [applySet_getKey_present _ _ _ _ hu hv]
        rw [getKey_updateRecordDict_created record existing now hpc] at hv
        exact hv.symm
  · cases cfgs with
    | nil => simp at hcfg
    | cons e ds =>
      have he : e = ecfg := by simpa using hcfg
      subst he
      have hdict : getKey (updateConfigDict config e cnow) "created_at" = some c := by
        simp only [updateConfigDict]
        rw [getKey_setKey_ne _ _ _ _ (by decide), getKey_setKey_self]
        rw [getKeyD, hc]
        rfl
      by_cases hne2 : replaceKeepId e (updateConfigDict config e cnow) = e
      · have hkeep : (update_config (e :: ds) config cnow).2 = e :: ds := by
          simp [update_config, hne2]
        rw [hkeep]
        exact ⟨e, rfl, hc⟩
      · have hstore2 : (update_config (e :: ds) config cnow).2 =
            replaceKeepId e (updateConfigDict config e cnow) :: ds := by
          simp [update_config, hne2, replaceFirst]
        rw [hstore2]
        refine ⟨_, rfl, ?_⟩
        rw [replaceKeepId]
        cases hid2 : getKey e "_id" with
        | none => exact hdict
        | some i =>
          rw [getKey, if_neg (by decide)]
          exact hdict

/-- Witness for C3 at concrete record and configuration updates. -/
theorem C3_witness :
    (∃ post, findOneById (update_record exStore exId
        [("ddd", Value.str "11")] "2024-06-01T12:00:00").2 exId = some post ∧
      getKey post "created_at" = getKey exDoc "created_at") ∧
    (∃ postc, (update_config [exCfg] [("status", Value.arr [])]
        "2024-06-02T00:00:00").2.head? = some postc ∧
      getKey postc "created_at" = some (Value.dt "2024-01-01T00:00:00")) :=
  C3_created_at_preserved exStore exId [("ddd", Value.str "11")]
    "2024-06-01T12:00:00" exDoc (by decide) (by decide) (by decide)
    (by decide) (by decide) (by decide)
    [exCfg] [("status", Value.arr [])] "2024-06-02T00:00:00" exCfg
    (Value.dt "2024-01-01T00:00:00") (by decide) (by decide)

/-! ### Claim C6: create then get round-trip -/

theorem hasKey_cons_false {k1 : String} {v1 : Value} {fs : Doc} {k : String}
    (h : hasKey ((k1, v1) :: fs) k = false) :
    ¬(k1 = k) ∧ hasKey fs k = false := by
  have hg := getKey_eq_none_of_hasKey_false h
  by_cases h1 : k1 = k
  · rw [getKey, if_pos h1] at hg
    exact absurd hg (by simp)
  · rw [getKey, if_neg h1] at hg
    exact ⟨h1, hasKey_false_of_getKey_none hg⟩

theorem getKey_append_right {d : Doc} (e : Doc) {k : String}
    (h : getKey d k = none) : getKey (d ++ e) k = getKey e k := by
  induction d with
  | nil => simp
  | cons kv fs ih =>
    obtain ⟨k1, v1⟩ := kv
    by_cases h1 : k1 = k
    · rw [getKey, if_pos h1] at h
      exact Option.noConfusion h
    · rw [getKey, if_neg h1] at h
      rw [List.cons_append, getKey, if_neg h1]
      exact ih h

/-- The document built by create_record before insertion: the non-null
payload fields followed by the two timestamps and the id appended by
pymongo, provided the payload carries none of those three keys. -/
theorem createRecord_stored_shape (D : Doc) (now id : String)
    (hpc : hasKey D "created_at" = false)
    (hpu : hasKey D "updated_at" = false)
    (hpi : hasKey D "_id" = false) :
    setKey (setKey (setKey D "created_at" (Value.dt now)) "updated_at"
        (Value.dt now)) "_id" (Value.oid id) =
      D ++ [("created_at", Value.dt now), ("updated_at", Value.dt now),
        ("_id", Value.oid id)] := by
  induction D with
  | nil =>
    rw [setKey, setKey, if_neg (by decide), setKey, setKey,
      if_neg (by decide), setKey, if_neg (by decide), setKey]
    rfl
  | cons kv fs ih =>
    obtain ⟨k1, v1⟩ := kv
    obtain ⟨h1c, hfc⟩ := hasKey_cons_false hpc
    obtain ⟨h1u, hfu⟩ := hasKey_cons_false hpu
    obtain ⟨h1i, hfi⟩ := hasKey_cons_false hpi
    rw [setKey, if_neg h1c, setKey, if_neg h1u, setKey, if_neg h1i,
      ih hfc hfu hfi, List.cons_append]

/-- Claim C6: creating a record and fetching it by the returned id gives
exactly the non-null input fields together with the two server-assigned
timestamps and the server-assigned id (the timestamps and id in their
serialized string forms). -/
theorem C6_create_then_get (store : List Doc) (record : Doc)
    (now newId : String)
    (hid : isValidObjectId newId = true)
    (hfresh : findOneById store newId = none)
    (hpc : hasKey (dropNone record) "created_at" = false)
    (hpu : hasKey (dropNone record) "updated_at" = false)
    (hpi : hasKey (dropNone record) "_id" = false)
    (hplain : plainFields (dropNone record) = true) :
    (create_record store record now newId).1.code = 201 ∧
    get_record_by_id (create_record store record now newId).2 newId =
      HResp.ok 200 (Value.obj (dropNone record ++
        [("created_at", Value.str now), ("updated_at", Value.str now),
         ("_id", Value.str newId)])) := by
  have hshape := createRecord_stored_shape (dropNone record) now newId hpc hpu hpi
  constructor
  · simp [create_record, HResp.code]
  · have hstore : (create_record store record now newId).2 =
        store ++ [dropNone record ++
          [("created_at", Value.dt now), ("updated_at", Value.dt now),
           ("_id", Value.oid newId)]] := by
      simp [create_record, hshape]
    have hgid : getKey (dropNone record ++
        [("created_at", Value.dt now), ("updated_at", Value.dt now),
         ("_id", Value.oid newId)]) "_id" = some (Value.oid newId) := by
      rw [getKey_append_right _ (getKey_eq_none_of_hasKey_false hpi),
        getKey, if_neg (by decide), getKey, if_neg (by decide),
        getKey, if_pos rfl]
    have hfound := findOneById_append_fresh hfresh hgid
    rw [hstore, get_record_by_id, hid]
    simp only [Bool.not_true, Bool.false_eq_true, if_false]
    simp only [hfound]
    rw [serializeFields_append, serializeFields_plain _ hplain]
    simp [serializeFields, serializeVal]

/-- Witness for C6 at a concrete payload (one null field dropped). -/
theorem C6_witness :
    (create_record exStore [("ddd", Value.str "11"), ("crm", Value.null)]
      "2024-06-01T12:00:00" "bbbbbbbbbbbbbbbbbbbbbbbb").1.code = 201 ∧
    get_record_by_id (create_record exStore
        [("ddd", Value.str "11"), ("crm", Value.null)]
        "2024-06-01T12:00:00" "bbbbbbbbbbbbbbbbbbbbbbbb").2
        "bbbbbbbbbbbbbbbbbbbbbbbb" =
      HResp.ok 200 (Value.obj
        (dropNone [("ddd", Value.str "11"), ("crm", Value.null)] ++
          [("created_at", Value.str "2024-06-01T12:00:00"),
           ("updated_at", Value.str "2024-06-01T12:00:00"),
           ("_id", Value.str "bbbbbbbbbbbbbbbbbbbbbbbb")])) :=
  C6_create_then_get exStore [("ddd", Value.str "11"), ("crm", Value.null)]
    "2024-06-01T12:00:00" "bbbbbbbbbbbbbbbbbbbbbbbb" (by decide) (by decide)
    (by decide) (by decide) (by decide) (by decide)

/-! ### Claim C7: GET /config never fails on absence -/

/-- Claim C7: GET /config always answers 200: on an empty collection it
returns the canonical empty structure (all five fields empty sequences),
and on a nonempty collection it returns the single document with its
internal `_id` popped before serialization. -/
theorem C7_get_config_total :
    (∀ cfgs, (get_config cfgs).isOk = true ∧ (get_config cfgs).code = 200) ∧
    get_config [] = HResp.ok 200 (Value.obj
      [("consultor", Value.arr []), ("status", Value.arr []),
       ("servicos", Value.arr []), ("plano", Value.arr []),
       ("pacote_sva", Value.arr [])]) ∧
    (∀ c cs, get_config (c :: cs) =
      HResp.ok 200 (Value.obj (serializeFields (eraseKey c "_id")))) := by
  refine ⟨?_, rfl, fun c cs => rfl⟩
  intro cfgs
  cases cfgs with
  | nil => exact ⟨rfl, rfl⟩
  | cons c cs => exact ⟨rfl, rfl⟩

/-! ### Claim C8: PUT /config 404 exactly on empty, POST /config inserts -/

/-- Claim C8: PUT /config fails with 404 exactly when the configuration
collection is empty (leaving it empty), while POST /config on an empty
collection inserts one document and answers 201. -/
theorem C8_put_404_iff_empty :
    (∀ config now, update_config [] config now =
      (HResp.err 404
        "Configuração não encontrada. Use POST para criar uma nova configuração.",
       ([] : List Doc))) ∧
    (∀ c cs config now, (update_config (c :: cs) config now).1.code ≠ 404) ∧
    (∀ config now newId,
      (create_config [] config now newId).1.isOk = true ∧
      (create_config [] config now newId).1.code = 201 ∧
      (create_config [] config now newId).2.length = 1) := by
  refine ⟨fun config now => rfl, ?_, ?_⟩
  · intro c cs config now
    by_cases hne : replaceKeepId c (updateConfigDict config c now) = c
    · have h1 : (update_config (c :: cs) config now).1 =
          HResp.err 400 "Nenhuma alteração foi feita na configuração" := by
        simp [update_config, hne]
      rw [h1]
      decide
    · have h1 : (update_config (c :: cs) config now).1.code = 200 := by
        simp [update_config, hne, replaceFirst, configWriteResponse,
          HResp.code]
      omega
  · intro config now newId
    refine ⟨?_, ?_, ?_⟩ <;>
      simp [create_config, configWriteResponse, HResp.code, HResp.isOk]

/-! ### Claim C9: null payload fields are dropped before storage -/

theorem noNulls_stampRecord (now : String) (r : Doc) :
    noNulls (stampRecord now r) = true := by
  apply noNulls_setKey
  · apply noNulls_setKey
    · exact noNulls_dropNone r
    · exact fun h => Value.noConfusion h
  · exact fun h => Value.noConfusion h

theorem all_noNulls_zipWith_ids :
    ∀ (ds : List Doc) (ids : List String), ds.all noNulls = true →
      (List.zipWith (fun d i => setKey d "_id" (Value.oid i)) ds ids).all
        noNulls = true := by
  intro ds
  induction ds with
  | nil => intro ids _; cases ids <;> rfl
  | cons d rest ih =>
    intro ids hall
    rw [List.all_cons, Bool.and_eq_true] at hall
    cases ids with
    | nil => rfl
    | cons i is =>
      rw [List.zipWith_cons_cons, List.all_cons, Bool.and_eq_true]
      exact ⟨noNulls_setKey hall.1 (fun h => Value.noConfusion h),
        ih is hall.2⟩

theorem map_stampRecord_dropNone (now : String) (rs : List Doc) :
    rs.map (stampRecord now ∘ dropNone) = rs.map (stampRecord now) := by
  induction rs with
  | nil => rfl
  | cons r rest ih =>
    simp only [List.map_cons, ih, Function.comp]
    rw [stampRecord, stampRecord, dropNone_idem]

/-- Claim C9: null-valued input fields are dropped before storage. For
create (single and batch) and for update, the handler behaves exactly as
if the null fields had been omitted, and no stored document produced by
the create handlers contains a null field. -/
theorem C9_nulls_dropped :
    ∀ (store : List Doc) (record : Doc) (records : List Doc) (id : String)
      (now newId : String) (newIds : List String),
      create_record store record now newId =
        create_record store (dropNone record) now newId ∧
      create_records_batch store records now newIds =
        create_records_batch store (records.map dropNone) now newIds ∧
      update_record store id record now =
        update_record store id (dropNone record) now ∧
      ((create_record store record now newId).2.drop store.length).all
        noNulls = true ∧
      ((create_records_batch store records now newIds).2.drop
        store.length).all noNulls = true := by
  intro store record records id now newId newIds
  have hmaps : (records.map dropNone).map (stampRecord now) =
      records.map (stampRecord now) := by
    rw [List.map_map]
    exact map_stampRecord_dropNone now records
  refine ⟨?_, ?_, ?_, ?_, ?_⟩
  · simp [create_record, dropNone_idem]
  · simp [create_records_batch, hmaps]
  · simp [update_record, updateRecordDict, dropNone_idem]
  · have hstored : noNulls (setKey (setKey (setKey (dropNone record)
        "created_at" (Value.dt now)) "updated_at" (Value.dt now)) "_id"
        (Value.oid newId)) = true := by
      apply noNulls_setKey
      · apply noNulls_setKey
        · apply noNulls_setKey
          · exact noNulls_dropNone record
          · exact fun h => Value.noConfusion h
        · exact fun h => Value.noConfusion h
      · exact fun h => Value.noConfusion h
    simp [create_record, List.drop_left, hstored]
  · have hall : (records.map (stampRecord now)).all noNulls = true := by
      rw [List.all_eq_true]
      intro d hd
      rw [List.mem_map] at hd
      obtain ⟨r, _, hr⟩ := hd
      rw [← hr]
      exact noNulls_stampRecord now r
    simp [create_records_batch, List.drop_left,
      all_noNulls_zipWith_ids _ newIds hall]

/-! ### Claim C10: POST /config zero-modified gives 500, PUT gives 400 -/

/-- Claim C10: when a configuration document exists and the replacement
leaves it unchanged (the store reports zero modified), POST /config
fails with 500 while PUT /config fails with 400 (NoChange); neither
touches the collection. -/
theorem C10_post_zero_modified_500 (cfgs : List Doc) (config : Doc)
    (now newId : String) (existing : Doc)
    (hhead : cfgs.head? = some existing)
    (hnochange : replaceKeepId existing
      (updateConfigDict config existing now) = existing) :
    create_config cfgs config now newId =
      (HResp.err 500 "Erro ao atualizar configuração", cfgs) ∧
    update_config cfgs config now =
      (HResp.err 400 "Nenhuma alteração foi feita na configuração", cfgs) := by
  cases cfgs with
  | nil => simp at hhead
  | cons e ds =>
    have he : e = existing := by simpa using hhead
    subst he
    constructor
    · have hpres : hasKey (setKey (dropNone config) "created_at"
          (Value.dt now)) "created_at" = true := by
        simp [hasKey, getKey_setKey_self]
      have hdict : setKey (setKey (setKey (dropNone config) "created_at"
            (Value.dt now)) "updated_at" (Value.dt now)) "created_at"
            (getKeyD e "created_at" (Value.dt now)) =
          updateConfigDict config e now := by
        rw [setKey_setKey_comm_of_present _ _ _ _ _ (by decide) hpres,
          setKey_setKey_self]
        rfl
      simp [create_config, hdict, hnochange]
    · simp [update_config, hnochange]

/-- Witness for C10: a stored configuration whose replacement with the
same payload at the stored modification time changes nothing. -/
theorem C10_witness :
    create_config [exCfg] [("status", Value.arr [Value.str "Ativo"])]
      "2024-01-02T00:00:00" "dddddddddddddddddddddddd" =
      (HResp.err 500 "Erro ao atualizar configuração", [exCfg]) ∧
    update_config [exCfg] [("status", Value.arr [Value.str "Ativo"])]
      "2024-01-02T00:00:00" =
      (HResp.err 400 "Nenhuma alteração foi feita na configuração",
       [exCfg]) :=
  C10_post_zero_modified_500 [exCfg]
    [("status", Value.arr [Value.str "Ativo"])] "2024-01-02T00:00:00"
    "dddddddddddddddddddddddd" exCfg (by decide) (by decide)
